import Mathlib

/-!
Verification of the geometry-generation and draw-index pipeline of
`tatlin` (`src/tatlin/lib/gl/gcodemodel.py`, class `GcodeModel`).

The Python code is shallowly embedded over exact rationals: every float
value of the program is modelled as a rational number.  Transcendental
leaf functions that the repository takes from the Python standard library
or from modules that are not part of the sources under verification
(`math.cos`, `math.sin`, `math.sqrt`, `math.pi`, `tatlin.lib.vector.rotate`
and `Movement.angle` from `tatlin.lib.model.gcode.parser`) are abstracted
as parameters collected in a `MathOps` record; every theorem below is
proved for all choices of these parameters.
-/

namespace Tatlin

/-- A 3-component vector of rationals, modelling the float triples
(`numpy` rows / `Movement.v`) used throughout `gcodemodel.py`. -/
structure Vec3 where
  x : ℚ
  y : ℚ
  z : ℚ
deriving DecidableEq, Repr

namespace Vec3

/-- Componentwise addition (numpy `+` on 3-vectors). -/
def add (a b : Vec3) : Vec3 := ⟨a.x + b.x, a.y + b.y, a.z + b.z⟩

/-- Componentwise subtraction (numpy `-` on 3-vectors). -/
def sub (a b : Vec3) : Vec3 := ⟨a.x - b.x, a.y - b.y, a.z - b.z⟩

/-- Scalar multiple (numpy scalar `*` on a 3-vector). -/
def smul (c : ℚ) (a : Vec3) : Vec3 := ⟨c * a.x, c * a.y, c * a.z⟩

/-- Cross product (`numpy.cross`). -/
def cross (a b : Vec3) : Vec3 :=
  ⟨a.y * b.z - a.z * b.y, a.z * b.x - a.x * b.z, a.x * b.y - a.y * b.x⟩

/-- Squared Euclidean norm.  `numpy.linalg.norm` returns the square root
of this quantity; comparisons of the norm against a nonnegative bound `c`
are rendered exactly as comparisons of `normSq` against `c ^ 2`. -/
def normSq (a : Vec3) : ℚ := a.x * a.x + a.y * a.y + a.z * a.z

end Vec3

/-- One movement record, as consumed by `GcodeModel.load_data`
(`Movement` of `tatlin.lib.model.gcode.parser`; only the fields read by
`gcodemodel.py` are modelled: `v`, `flags`, `delta_e`, `line_no`). -/
structure Movement where
  v : Vec3
  flags : ℕ
  delta_e : ℚ
  line_no : ℕ
deriving DecidableEq, Repr

instance : Inhabited Movement := ⟨⟨⟨0, 0, 0⟩, 0, 0, 0⟩⟩

/-- Modelled from the spec: the flag bit constants live in
`tatlin.lib.model.gcode.parser`, which is not among the sources; the spec
describes `flags` as an integer bitmask with recognized bits
`EXTRUDER_ON`, `PERIMETER`, `PERIMETER_OUTER`, `LOOP`.  Concrete distinct
bits are fixed here; no theorem depends on the particular values. -/
def FLAG_EXTRUDER_ON : ℕ := 1

/-- Modelled from the spec: see `FLAG_EXTRUDER_ON`. -/
def FLAG_PERIMETER : ℕ := 2

/-- Modelled from the spec: see `FLAG_EXTRUDER_ON`. -/
def FLAG_PERIMETER_OUTER : ℕ := 4

/-- Modelled from the spec: see `FLAG_EXTRUDER_ON`. -/
def FLAG_LOOP : ℕ := 8

/-- RGBA color, a 4-tuple of floats in the source. -/
abbrev Color : Type := ℚ × ℚ × ℚ × ℚ

/-- `GcodeModel.movement_color` (gcodemodel.py lines 230-252).  Python
truthiness of `move.flags & FLAG` is `flags &&& FLAG ≠ 0`; the `or` with
`move.delta_e > 0` and the `and` combinations are boolean as in the
source.  The `if/elif` cascade is translated branch for branch, with the
gray default color returned when no branch fires. -/
def movement_color (move : Movement) : Color :=
  let extruder_on : Bool :=
    (move.flags &&& FLAG_EXTRUDER_ON != 0) || decide ((0 : ℚ) < move.delta_e)
  let outer_perimeter : Bool :=
    (move.flags &&& FLAG_PERIMETER != 0) && (move.flags &&& FLAG_PERIMETER_OUTER != 0)
  if extruder_on && outer_perimeter then (0, 0.875, 0.875, 0.6)        -- cyan
  else if extruder_on && (move.flags &&& FLAG_PERIMETER != 0) then (0, 1, 0, 0.6)  -- green
  else if extruder_on && (move.flags &&& FLAG_LOOP != 0) then (1, 0.875, 0, 0.6)   -- yellow
  else if extruder_on then (1, 0, 0, 0.6)                              -- red
  else (0.6, 0.6, 0.6, 0.6)                                            -- gray

/-- The movement classifier exactly as the spec words it (refinement
target for comparison with `movement_color`): a first-match-wins priority
list over the flag bits and `delta_extrusion`, with `delta_extrusion > 0`
counting as extruding even when `EXTRUDER_ON` is unset. -/
def classify_spec (flags : ℕ) (delta_e : ℚ) : Color :=
  let extruding : Bool :=
    (flags &&& FLAG_EXTRUDER_ON != 0) || decide ((0 : ℚ) < delta_e)
  if !extruding then (0.6, 0.6, 0.6, 0.6)                              -- gray
  else if (flags &&& FLAG_PERIMETER != 0) && (flags &&& FLAG_PERIMETER_OUTER != 0) then
    (0, 0.875, 0.875, 0.6)                                             -- cyan
  else if flags &&& FLAG_PERIMETER != 0 then (0, 1, 0, 0.6)            -- green
  else if flags &&& FLAG_LOOP != 0 then (1, 0.875, 0, 0.6)             -- yellow
  else (1, 0, 0, 0.6)                                                  -- red

/-- The external mathematical leaf functions used by `gcodemodel.py` but
implemented outside the sources under verification: `math.cos`,
`math.sin`, `math.sqrt` and the float constant `math.pi` from the Python
standard library, and, modelled from the spec, `Movement.angle` and
`tatlin.lib.vector.rotate` (rotation about the z axis applied pointwise
to template vertices), whose defining modules are not among the sources.
All results below hold for every choice of these operations. -/
structure MathOps where
  cos : ℚ → ℚ
  sin : ℚ → ℚ
  sqrt : ℚ → ℚ
  pi : ℚ
  angle : Vec3 → Vec3 → ℚ
  rotZ : ℚ → Vec3 → Vec3

/-- A trivial instantiation of the external operations, used to evaluate
the model on concrete inputs. -/
def trivOps : MathOps :=
  { cos := fun _ => 0, sin := fun _ => 0, sqrt := fun _ => 0,
    pi := 0, angle := fun _ _ => 0, rotZ := fun _ p => p }

/-- The degeneracy tolerance of `_generate_cylinder`: the source compares
`numpy.linalg.norm(direction) < 1e-6`; squaring both sides gives the
exact-rational test `normSq direction < (1e-6)^2 = 1/10^12`. -/
def degenEpsSq : ℚ := 1 / 1000000000000

/-- One iteration of the `for i in range(sides)` loop of
`_generate_cylinder`, vertex part (gcodemodel.py lines 199-226): the two
triangles `v1_start, v2_start, v1_end` and `v2_start, v2_end, v1_end` of
side `i`, where `normalAt` maps a ring index to its outward radial
normal. -/
def cylinder_side_vertices (start end_ : Vec3) (radius : ℚ) (normalAt : ℕ → Vec3)
    (sides i : ℕ) : List Vec3 :=
  let normal1 := normalAt i
  let normal2 := normalAt ((i + 1) % sides)
  let v1s := start.add (Vec3.smul radius normal1)
  let v2s := start.add (Vec3.smul radius normal2)
  let v1e := end_.add (Vec3.smul radius normal1)
  let v2e := end_.add (Vec3.smul radius normal2)
  [v1s, v2s, v1e, v2s, v2e, v1e]

/-- One iteration of the same loop, normal part: the per-vertex normals
`n1, n2, n1` and `n2, n2, n1` of the two triangles of side `i`. -/
def cylinder_side_normals (normalAt : ℕ → Vec3) (sides i : ℕ) : List Vec3 :=
  let normal1 := normalAt i
  let normal2 := normalAt ((i + 1) % sides)
  [normal1, normal2, normal1, normal2, normal2, normal1]

/-- `GcodeModel._generate_cylinder` (gcodemodel.py lines 165-228).
Returns the `(vertices, normals)` pair for one movement segment.  The
norm test `length < 1e-6` is rendered as the equivalent squared test
against `degenEpsSq`; divisions by the abstract square roots follow the
source expressions (`x / length`, `perp / norm(perp)`). -/
def generate_cylinder (M : MathOps) (start end_ : Vec3) (radius : ℚ) (sides : ℕ) :
    List Vec3 × List Vec3 :=
  let direction0 := end_.sub start
  if direction0.normSq < degenEpsSq then ([], [])
  else
    let length := M.sqrt direction0.normSq
    let direction := Vec3.smul (1 / length) direction0
    let arbitrary : Vec3 := if |direction.x| < 9/10 then ⟨1, 0, 0⟩ else ⟨0, 1, 0⟩
    let perp1a := direction.cross arbitrary
    let perp1 := Vec3.smul (1 / M.sqrt perp1a.normSq) perp1a
    let perp2a := direction.cross perp1
    let perp2 := Vec3.smul (1 / M.sqrt perp2a.normSq) perp2a
    let normalAt : ℕ → Vec3 := fun i =>
      let angle := 2 * M.pi * (i : ℚ) / (sides : ℚ)
      (Vec3.smul (M.cos angle) perp1).add (Vec3.smul (M.sin angle) perp2)
    ((List.range sides).flatMap (cylinder_side_vertices start end_ radius normalAt sides),
     (List.range sides).flatMap (cylinder_side_normals normalAt sides))

/-- The picking color assigned to movement `movement_idx` by
`GcodeModel._render_for_picking` (gcodemodel.py lines 555-584), as the
byte triple `(r, g, b)`: `color_id = movement_idx + 1` split into its
three 8-bit components.  (The source passes `r/255.0` etc. to
`glColor3f` and the pick later reads the framebuffer back as unsigned
bytes with dithering disabled, so the byte triple is what the decoder
observes.) -/
def picking_color_bytes (movement_idx : ℕ) : ℕ × ℕ × ℕ :=
  let color_id := movement_idx + 1
  ((color_id >>> 16) &&& 0xFF, (color_id >>> 8) &&& 0xFF, color_id &&& 0xFF)

/-- The color-decoding tail of `GcodeModel.pick_movement`
(gcodemodel.py lines 541-553): exact black is "no hit"; otherwise the
24-bit integer is reconstructed as `(r << 16) | (g << 8) | b`, decremented
(in ℤ, as Python ints), and used to index `movement_line_numbers` when in
range, falling through to `None` otherwise. -/
def decode_pick (r g b : ℕ) (movement_line_numbers : List ℕ) : Option ℕ :=
  if r = 0 ∧ g = 0 ∧ b = 0 then none
  else
    let movement_idx : ℤ := (((r <<< 16) ||| (g <<< 8) ||| b : ℕ) : ℤ) - 1
    if 0 ≤ movement_idx ∧ movement_idx < movement_line_numbers.length then
      some (movement_line_numbers.getD movement_idx.toNat 0)
    else none

/-- The pixel-handling head of `GcodeModel.pick_movement`
(gcodemodel.py lines 526-539) composed with `decode_pick`: a pixel that
is `None`, or whose flattened data cannot be converted to at least three
integer channel values (the `try`/`except` and the length guard of the
source), yields `None`; otherwise the first three channels are decoded. -/
def pick_movement_decode (pixel : Option (List ℕ)) (movement_line_numbers : List ℕ) :
    Option ℕ :=
  match pixel with
  | none => none
  | some l =>
      if 3 ≤ l.length then
        decode_pick (l.getD 0 0) (l.getD 1 0) (l.getD 2 0) movement_line_numbers
      else none

/-- The arrow template `GcodeModel.arrow` (gcodemodel.py lines 40-47). -/
def arrow_template : List Vec3 := [⟨0, 0, 0⟩, ⟨0.4, -0.1, 0⟩, ⟨0.4, 0.1, 0⟩]

/-- `GcodeModel.layer_entry_marker` (gcodemodel.py lines 48-55). -/
def layer_entry_marker : List Vec3 := [⟨0.23, -0.14, 0⟩, ⟨0, 0.26, 0⟩, ⟨-0.23, -0.14, 0⟩]

/-- `GcodeModel.layer_exit_marker` (gcodemodel.py lines 56-66). -/
def layer_exit_marker : List Vec3 :=
  [⟨-0.23, -0.23, 0⟩, ⟨0.23, -0.23, 0⟩, ⟨0.23, 0.23, 0⟩,
   ⟨0.23, 0.23, 0⟩, ⟨-0.23, 0.23, 0⟩, ⟨-0.23, -0.23, 0⟩]

/-- The errors a `load_data` call can surface.  `indexError` models a
Python `IndexError` from indexing an empty list (`model_data[0]`,
`model_data[0][0]` or `layer[0]`).  `malformedInputError` is modelled
from the spec: the spec's error taxonomy names `MalformedInputError` for
an empty movement stream; no such class occurs in the sources under
verification (it would live outside `src/`), but the constructor is
needed to state what the spec asserts about the failure. -/
inductive LoadError where
  | indexError
  | malformedInputError
deriving DecidableEq, Repr

/-- The attributes `GcodeModel.load_data` assigns on `self`.  Each field
is an `Option`: `none` models "attribute not (yet) assigned", so partial
mutation before an exception is observable exactly as in Python. -/
structure GcodeState where
  layer_stops : Option (List ℕ) := none
  layer_heights : Option (List ℚ) := none
  layer_marker_stops : Option (List ℕ) := none
  movement_line_numbers : Option (List ℕ) := none
  selected_lines : Option (List ℕ) := none
  vertices : Option (List Vec3) := none
  normals : Option (List Vec3) := none
  colors : Option (List Color) := none
  arrows : Option (List Vec3) := none
  layer_markers : Option (List Vec3) := none
  max_layers : Option ℕ := none
  num_layers_to_draw : Option ℕ := none
  arrows_enabled : Option Bool := none
  model_initialized : Option Bool := none
  vertex_count : Option ℕ := none
deriving Repr

/-- A fresh model object on which no attribute has been assigned yet. -/
def GcodeState.fresh : GcodeState := {}

/-- The local accumulator lists of `load_data` (`vertex_list`,
`normal_list`, `color_list`, `arrow_list`, `arrow_endpoints`,
`layer_markers_list`) together with the running `prev` movement. -/
structure BuildLocals where
  vertex_list : List Vec3
  normal_list : List Vec3
  color_list : List Color
  arrow_list : List Vec3
  arrow_endpoints : List Vec3
  layer_markers_list : List Vec3
  prev : Movement

/-- The body of the inner `for movement in layer` loop of `load_data`
(gcodemodel.py lines 97-119): cylinder geometry, the rotated (not yet
translated) arrow, the endpoint record, the movement's line number on
`self.movement_line_numbers`, `cylinder_sides * 6` copies of the
movement's color, and the advance of `prev`. -/
def process_movement (M : MathOps) (cylinder_radius : ℚ) (cylinder_sides : ℕ)
    (st : GcodeState) (loc : BuildLocals) (movement : Movement) :
    GcodeState × BuildLocals :=
  let g := generate_cylinder M loc.prev.v movement.v cylinder_radius cylinder_sides
  let arrow := arrow_template.map (M.rotZ (M.angle movement.v loc.prev.v))
  let st := { st with
    movement_line_numbers := some (st.movement_line_numbers.getD [] ++ [movement.line_no]) }
  let vertex_color := movement_color movement
  (st,
   { vertex_list := loc.vertex_list ++ g.1
     normal_list := loc.normal_list ++ g.2
     color_list := loc.color_list ++ List.replicate (cylinder_sides * 6) vertex_color
     arrow_list := loc.arrow_list ++ arrow
     arrow_endpoints := loc.arrow_endpoints ++ [movement.v]
     layer_markers_list := loc.layer_markers_list
     prev := movement })

/-- The layer-entry marker appended after a layer (gcodemodel.py lines
124-130): for layers past the first, the entry-marker template translated
to the previous layer's last movement position, provided that layer is
nonempty; for layer 0, the template translated to the layer's first
movement position; otherwise nothing. -/
def entry_marker_vertices (md_full : List (List Movement)) (layer_idx : ℕ)
    (layer : List Movement) : List Vec3 :=
  if 0 < layer_idx ∧ 0 < (md_full.getD (layer_idx - 1) []).length then
    layer_entry_marker.map
      (·.add ((md_full.getD (layer_idx - 1) []).getLast?.getD default).v)
  else if layer_idx = 0 ∧ 0 < layer.length then
    layer_entry_marker.map (·.add (layer.getD 0 default).v)
  else []

/-- The layer-exit marker appended after a layer (gcodemodel.py lines
132-134): for layers with more than one movement, the exit-marker
template translated to the layer's last movement position. -/
def exit_marker_vertices (layer : List Movement) : List Vec3 :=
  if 1 < layer.length then
    layer_exit_marker.map (·.add (layer.getLast?.getD default).v)
  else []

/-- The per-layer `for layer_idx, layer in enumerate(model_data)` loop of
`load_data` (gcodemodel.py lines 95-139), iterated over the layers still
to process.  `md_full` is the (already origin-deleted) `model_data` list,
consulted for the entry-marker position of the previous layer;
`num_layers` and `callback_every` are the values computed before the
loop.  `first = layer[0]` on an empty layer raises `IndexError`, ending
the loop with the state mutated so far.  The returned trace lists the
`callback(layer_idx + 1, num_layers)` invocations in order (empty when no
callback was supplied, modelled by `use_callback = false`). -/
def process_layers (M : MathOps) (cylinder_radius : ℚ) (cylinder_sides : ℕ)
    (md_full : List (List Movement)) (num_layers callback_every : ℕ)
    (use_callback : Bool) :
    ℕ → List (List Movement) → GcodeState → BuildLocals → List (ℕ × ℕ) →
    GcodeState × BuildLocals × List (ℕ × ℕ) × Option LoadError
  | _, [], st, loc, trace => (st, loc, trace, none)
  | layer_idx, layer :: rest, st, loc, trace =>
    match layer with
    | [] => (st, loc, trace, some .indexError)
    | first :: _ =>
      let p := layer.foldl
        (fun (p : GcodeState × BuildLocals) mv =>
          process_movement M cylinder_radius cylinder_sides p.1 p.2 mv)
        (st, loc)
      let st := p.1
      let loc := p.2
      let st := { st with
        layer_stops := some (st.layer_stops.getD [] ++ [loc.vertex_list.length])
        layer_heights := some (st.layer_heights.getD [] ++ [first.v.z]) }
      let loc := { loc with
        layer_markers_list := loc.layer_markers_list ++
          entry_marker_vertices md_full layer_idx layer ++ exit_marker_vertices layer }
      let st := { st with
        layer_marker_stops := some (st.layer_marker_stops.getD [] ++ [loc.layer_markers_list.length]) }
      let trace :=
        if use_callback ∧ layer_idx % callback_every = 0 then
          trace ++ [(layer_idx + 1, num_layers)]
        else trace
      process_layers M cylinder_radius cylinder_sides md_full num_layers
        callback_every use_callback (layer_idx + 1) rest st loc trace

/-- The attribute resets at the top of `load_data` (gcodemodel.py lines
74-83): fresh index tables and an empty selection are assigned on `self`
before anything else happens. -/
def reset_tables (s : GcodeState) : GcodeState :=
  { s with
    layer_stops := some [0]
    layer_heights := some ([] : List ℚ)
    layer_marker_stops := some [0]
    movement_line_numbers := some ([] : List ℕ)
    selected_lines := some ([] : List ℕ) }

/-- The initial accumulator lists of `load_data` (all empty, gcodemodel.py
lines 71-78) with `prev` set to the origin movement (line 93). -/
def BuildLocals.init (start : Movement) : BuildLocals :=
  ⟨[], [], [], [], [], [], start⟩

/-- The full result of a `load_data` call: the model state after the
call, the `model_data` list as the call leaves it (the call deletes the
origin movement from the first layer in place), the ordered trace of
progress-callback invocations, and the exception surfaced, if any. -/
structure LoadOutcome where
  state : GcodeState
  model_data : List (List Movement)
  trace : List (ℕ × ℕ)
  error : Option LoadError
deriving Repr

/-- `GcodeModel.load_data` (gcodemodel.py lines 68-163).  The index
tables are reset on `self` first (lines 74-83); `num_layers` and
`callback_every` are computed (lines 85-86); `start = prev =
model_data[0][0]` followed by `del model_data[0][0]` consumes the origin,
raising `IndexError` when `model_data` or its first layer is empty
(lines 92-94); the layer loop runs (lines 95-139); and on success the
flat buffers are published, with the arrows translated to the movement
endpoints repeated three times each (lines 141-158). -/
def load_data (M : MathOps) (s : GcodeState) (model_data : List (List Movement))
    (use_callback : Bool) : LoadOutcome :=
  let s := reset_tables s
  let num_layers := model_data.length
  let callback_every := max 1 (num_layers / 100)
  let cylinder_sides : ℕ := 8
  let cylinder_radius : ℚ := 0.1
  match model_data with
  | [] => ⟨s, model_data, [], some .indexError⟩
  | [] :: _ => ⟨s, model_data, [], some .indexError⟩
  | (start :: l0rest) :: rest =>
    let md := l0rest :: rest
    let r := process_layers M cylinder_radius cylinder_sides md num_layers
      callback_every use_callback 0 md s (BuildLocals.init start) []
    match r.2.2.2 with
    | some e => ⟨r.1, md, r.2.2.1, some e⟩
    | none =>
      let loc := r.2.1
      let arrows :=
        if 0 < loc.arrow_endpoints.length then
          List.zipWith Vec3.add loc.arrow_list
            (loc.arrow_endpoints.flatMap (List.replicate 3))
        else loc.arrow_list
      let st := { r.1 with
        vertices := some loc.vertex_list
        normals := some loc.normal_list
        colors := some loc.color_list
        arrows := some arrows
        layer_markers := some loc.layer_markers_list
        max_layers := some (((r.1).layer_stops.getD []).length - 1)
        num_layers_to_draw := some (((r.1).layer_stops.getD []).length - 1)
        arrows_enabled := some true
        model_initialized := some false
        vertex_count := some loc.vertex_list.length }
      ⟨st, md, r.2.2.1, none⟩

/-- The reverse-order `while stop_idx >= 0` loop of
`GcodeModel._display_movements` (gcodemodel.py lines 348-355): called
with `n = num_layers_to_draw`, it emits the range of layer `n - 1`, then
`n - 2`, …, down to layer `0`, each as `(layer_stops[k],
layer_stops[k+1] - layer_stops[k])` with the count subtracted as a Python
int. -/
def draw_reverse (layer_stops : List ℕ) : ℕ → List (ℕ × ℤ)
  | 0 => []
  | k + 1 =>
    (layer_stops.getD k 0, (layer_stops.getD (k + 1) 0 : ℤ) - (layer_stops.getD k 0 : ℤ)) ::
      draw_reverse layer_stops k

/-- The `while stop_idx > reverse_threshold_layer` loop of the
perspective branch of `_display_movements` (gcodemodel.py lines
371-378): counts down from `num_layers_to_draw - 1`, stopping once
`stop_idx ≤ threshold`. -/
def draw_reverse_above (layer_stops : List ℕ) (threshold : ℕ) : ℕ → List (ℕ × ℤ)
  | 0 => []
  | k + 1 =>
    if threshold < k then
      (layer_stops.getD k 0, (layer_stops.getD (k + 1) 0 : ℤ) - (layer_stops.getD k 0 : ℤ)) ::
        draw_reverse_above layer_stops threshold k
    else []

/-- `GcodeModel._layer_up_to_height` (gcodemodel.py lines 384-390): scans
`layer_heights` from the top down and returns the first index whose
height is strictly below `height`, or `0` when none is. -/
def layer_up_to_height (layer_heights : List ℚ) (height : ℚ) : ℕ :=
  go layer_heights.length
where
  /-- The `for idx in range(len - 1, -1, -1)` countdown. -/
  go : ℕ → ℕ
  | 0 => 0
  | k + 1 => if layer_heights.getD k 0 < height then k else go k

/-- The draw plan of `GcodeModel._display_movements` (gcodemodel.py lines
323-378) as the ordered list of `(start, count)` ranges passed to
`glDrawArrays`, as a function of the branch selectors `mode_2d`,
`mode_ortho` (checked in source order), the view parameters and the index
tables.  Indexing is modelled with `getD`; theorems restrict
`num_layers_to_draw` to `1 ≤ n ≤ layer_count`, where every subscript the
source evaluates is in range. -/
def display_movements_plan (mode_2d mode_ortho : Bool) (elevation eye_height offset_z : ℚ)
    (layer_stops : List ℕ) (layer_heights : List ℚ) (num_layers_to_draw : ℕ) :
    List (ℕ × ℤ) :=
  if mode_2d then
    let start := layer_stops.getD (num_layers_to_draw - 1) 0
    let stop := layer_stops.getD num_layers_to_draw 0
    [(start, (stop : ℤ) - (start : ℤ))]
  else if mode_ortho then
    if 0 ≤ elevation then
      [(0, (layer_stops.getD num_layers_to_draw 0 : ℤ))]
    else
      draw_reverse layer_stops num_layers_to_draw
  else
    let reverse_threshold_layer := layer_up_to_height layer_heights (eye_height - offset_z)
    let normal_layers_to_draw := min num_layers_to_draw (reverse_threshold_layer + 1)
    [((0 : ℕ), (layer_stops.getD normal_layers_to_draw 0 : ℤ))] ++
      (if reverse_threshold_layer + 1 < num_layers_to_draw then
        draw_reverse_above layer_stops reverse_threshold_layer num_layers_to_draw
      else [])

/-- The draw range of `GcodeModel._display_arrows` (gcodemodel.py lines
392-405): start and end offsets are taken from `layer_stops`, floor
divided by 2 and multiplied by 3, and submitted as one
`(start, end - start)` range. -/
def display_arrows_range (layer_stops : List ℕ) (num_layers_to_draw : ℕ) : ℕ × ℤ :=
  let start := layer_stops.getD (num_layers_to_draw - 1) 0 / 2 * 3
  let stop := layer_stops.getD num_layers_to_draw 0 / 2 * 3
  (start, (stop : ℤ) - (start : ℤ))

/-- The layer-loop call made by `load_data` on a stream whose first
layer starts with movement `m` (proof-side abbreviation for the
application appearing in the body of `load_data`). -/
abbrev build_core (M : MathOps) (s : GcodeState) (m : Movement) (tl : List Movement)
    (rest : List (List Movement)) (u : Bool) :
    GcodeState × BuildLocals × List (ℕ × ℕ) × Option LoadError :=
  process_layers M (0.1 : ℚ) 8 (tl :: rest) ((m :: tl) :: rest).length
    (max 1 (((m :: tl) :: rest).length / 100)) u 0 (tl :: rest)
    (reset_tables s) (BuildLocals.init m) []

/-- Every consecutive pair of positions along a movement list, starting
from `prev`, is separated by at least the degeneracy tolerance (so no
cylinder in the walk degenerates). -/
def chain_ok (prev : Vec3) : List Movement → Bool
  | [] => true
  | m :: rest => decide (degenEpsSq ≤ (m.v.sub prev).normSq) && chain_ok m.v rest

/-- The position reached after walking a movement list from `p`. -/
def lastPos (p : Vec3) : List Movement → Vec3
  | [] => p
  | m :: rest => lastPos m.v rest

/-- The movement reached after walking a movement list from `m0`. -/
def lastMov (m0 : Movement) : List Movement → Movement
  | [] => m0
  | m :: rest => lastMov m rest

/-- Number of recorded movement line numbers on the model state. -/
def mlnLen (st : GcodeState) : ℕ := (st.movement_line_numbers.getD []).length

/-- The unconditional buffer-length relations maintained by the movement
loop: vertices and normals are equinumerous, and colors, arrows and
arrow endpoints are in fixed ratio to the recorded movement count. -/
def lengths_inv (cs : ℕ) (st : GcodeState) (loc : BuildLocals) : Prop :=
  loc.vertex_list.length = loc.normal_list.length ∧
  loc.color_list.length = cs * 6 * mlnLen st ∧
  loc.arrow_list.length = 3 * mlnLen st ∧
  loc.arrow_endpoints.length = mlnLen st

/-- `lengths_inv` together with the relation that only holds when no
movement so far was degenerate: the vertex count is `cs * 6` per recorded
movement. -/
def full_inv (cs : ℕ) (st : GcodeState) (loc : BuildLocals) : Prop :=
  lengths_inv cs st loc ∧ loc.vertex_list.length = cs * 6 * mlnLen st

/-- Concrete origin movement used for evaluation: position `(0,0,0)`,
no flags, source line 1. -/
def mOrigin : Movement := ⟨⟨0, 0, 0⟩, 0, 0, 1⟩

/-- Concrete movement one unit above the origin, source line 2. -/
def mUp : Movement := ⟨⟨0, 0, 1⟩, 0, 0, 2⟩

/-- A 199-layer stream whose movements all sit at the origin: the first
layer holds the origin point plus one (degenerate) movement, and 198
further single-movement layers follow. -/
def md199 : List (List Movement) := [mOrigin, mOrigin] :: List.replicate 198 [mOrigin]

/-! ### Helper lemmas -/

/-- A `flatMap` whose blocks all have length `c` has length `l.length * c`. -/
lemma length_flatMap_const {α β : Type} (l : List α) (f : α → List β) (c : ℕ)
    (h : ∀ a, (f a).length = c) : (l.flatMap f).length = l.length * c := by
  induction l with
  | nil => simp
  | cons a t ih => simp [h, ih, Nat.succ_mul, Nat.add_comm]

/-- Each vertex block of the cylinder loop holds 6 vertices. -/
lemma cylinder_side_vertices_length {s e : Vec3} {r : ℚ} {na : ℕ → Vec3} {n i : ℕ} :
    (cylinder_side_vertices s e r na n i).length = 6 := rfl

/-- Each normal block of the cylinder loop holds 6 normals. -/
lemma cylinder_side_normals_length {na : ℕ → Vec3} {n i : ℕ} :
    (cylinder_side_normals na n i).length = 6 := rfl

/-- A degenerate segment produces no geometry. -/
lemma generate_cylinder_degenerate (M : MathOps) (start end_ : Vec3) (radius : ℚ)
    (sides : ℕ) (h : (end_.sub start).normSq < degenEpsSq) :
    generate_cylinder M start end_ radius sides = ([], []) := by
  unfold generate_cylinder
  rw [if_pos h]

/-- A zero-length segment (equal endpoints) is degenerate. -/
lemma generate_cylinder_self (M : MathOps) (p : Vec3) (radius : ℚ) (sides : ℕ) :
    generate_cylinder M p p radius sides = ([], []) := by
  apply generate_cylinder_degenerate
  have h : (p.sub p).normSq = 0 := by
    simp [Vec3.sub, Vec3.normSq]
  rw [h]; norm_num [degenEpsSq]

/-- A non-degenerate segment produces exactly `sides * 6` vertices. -/
lemma generate_cylinder_fst_length (M : MathOps) (start end_ : Vec3) (radius : ℚ)
    (sides : ℕ) (h : ¬ (end_.sub start).normSq < degenEpsSq) :
    (generate_cylinder M start end_ radius sides).1.length = sides * 6 := by
  unfold generate_cylinder
  rw [if_neg h]
  rw [length_flatMap_const _ _ 6 (fun i => cylinder_side_vertices_length), List.length_range]

/-- A non-degenerate segment produces exactly `sides * 6` normals. -/
lemma generate_cylinder_snd_length (M : MathOps) (start end_ : Vec3) (radius : ℚ)
    (sides : ℕ) (h : ¬ (end_.sub start).normSq < degenEpsSq) :
    (generate_cylinder M start end_ radius sides).2.length = sides * 6 := by
  unfold generate_cylinder
  rw [if_neg h]
  rw [length_flatMap_const _ _ 6 (fun i => cylinder_side_normals_length), List.length_range]

/-- Whatever the inputs, vertices and normals of one segment are equinumerous. -/
lemma generate_cylinder_len_eq (M : MathOps) (start end_ : Vec3) (radius : ℚ) (sides : ℕ) :
    (generate_cylinder M start end_ radius sides).2.length =
      (generate_cylinder M start end_ radius sides).1.length := by
  by_cases h : (end_.sub start).normSq < degenEpsSq
  · rw [generate_cylinder_degenerate M start end_ radius sides h]
  · rw [generate_cylinder_fst_length M start end_ radius sides h,
      generate_cylinder_snd_length M start end_ radius sides h]

/-! ### C2: the movement classifier -/

/-- Claim C2: `movement_color` is a total, deterministic function of the
movement's flags and `delta_e` alone, and agrees everywhere with the
spec's first-match-wins priority list `classify_spec` (gray when not
extruding; cyan when extruding with PERIMETER and PERIMETER_OUTER; green
when extruding with PERIMETER; yellow when extruding with LOOP; red
otherwise; `delta_e > 0` counts as extruding even with EXTRUDER_ON
unset). -/
theorem movement_color_eq_classify_spec (m : Movement) :
    movement_color m = classify_spec m.flags m.delta_e := by
  unfold movement_color classify_spec
  cases he : (m.flags &&& FLAG_EXTRUDER_ON != 0) || decide ((0 : ℚ) < m.delta_e) <;>
    cases hp : (m.flags &&& FLAG_PERIMETER != 0) <;>
      cases ho : (m.flags &&& FLAG_PERIMETER_OUTER != 0) <;>
        cases hl : (m.flags &&& FLAG_LOOP != 0) <;>
          simp [he, hp, ho, hl]

/-! ### C4: segment geometry generator output sizes -/

/-- Claim C4: for every choice of external math operations and every pair of
endpoints, `_generate_cylinder` returns empty vertex and normal lists
when the segment is degenerate (`|end - start| < 1e-6`, i.e.
`normSq < (1e-6)^2`), and otherwise exactly `sides * 6` vertices with
equally many normals; no other output size is possible. -/
theorem generate_cylinder_sizes (M : MathOps) (start end_ : Vec3) (radius : ℚ) (sides : ℕ) :
    ((end_.sub start).normSq < degenEpsSq →
      generate_cylinder M start end_ radius sides = ([], [])) ∧
    (¬ (end_.sub start).normSq < degenEpsSq →
      (generate_cylinder M start end_ radius sides).1.length = sides * 6 ∧
      (generate_cylinder M start end_ radius sides).2.length =
        (generate_cylinder M start end_ radius sides).1.length) :=
  ⟨generate_cylinder_degenerate M start end_ radius sides,
   fun h => ⟨generate_cylinder_fst_length M start end_ radius sides h,
     generate_cylinder_len_eq M start end_ radius sides⟩⟩

/-- Witness for C4 at concrete inputs: a zero-length segment yields empty
output, and the segment from the origin to `(0,0,1)` with 8 sides yields
exactly 48 vertices and 48 normals. -/
theorem generate_cylinder_sizes_witness :
    generate_cylinder trivOps ⟨0, 0, 0⟩ ⟨0, 0, 0⟩ 1 8 = ([], []) ∧
    (generate_cylinder trivOps ⟨0, 0, 0⟩ ⟨0, 0, 1⟩ 1 8).1.length = 48 ∧
    (generate_cylinder trivOps ⟨0, 0, 0⟩ ⟨0, 0, 1⟩ 1 8).2.length =
      (generate_cylinder trivOps ⟨0, 0, 0⟩ ⟨0, 0, 1⟩ 1 8).1.length := by
  have hdeg : ((⟨0, 0, 0⟩ : Vec3).sub ⟨0, 0, 0⟩).normSq < degenEpsSq := by
    norm_num [Vec3.sub, Vec3.normSq, degenEpsSq]
  have hnd : ¬ ((⟨0, 0, 1⟩ : Vec3).sub ⟨0, 0, 0⟩).normSq < degenEpsSq := by
    norm_num [Vec3.sub, Vec3.normSq, degenEpsSq]
  refine ⟨(generate_cylinder_sizes trivOps ⟨0, 0, 0⟩ ⟨0, 0, 0⟩ 1 8).1 hdeg, ?_, ?_⟩
  · have h := ((generate_cylinder_sizes trivOps ⟨0, 0, 0⟩ ⟨0, 0, 1⟩ 1 8).2 hnd).1
    simpa using h
  · exact ((generate_cylinder_sizes trivOps ⟨0, 0, 0⟩ ⟨0, 0, 1⟩ 1 8).2 hnd).2

/-! ### C10: picking fails closed on malformed pixel samples -/

/-- Claim C10: the pick decoder never raises on malformed pixel data — a pixel
that is `None`, or whose flattened data holds fewer than three channel
values (short data, unexpected type or a conversion failure, all modelled
by the `Option`), decodes to `None` (no hit). -/
theorem pick_movement_decode_fails_closed (movement_line_numbers : List ℕ)
    (pixel : Option (List ℕ))
    (h : pixel = none ∨ ∃ l, pixel = some l ∧ l.length < 3) :
    pick_movement_decode pixel movement_line_numbers = none := by
  rcases h with h | ⟨l, rfl, hl⟩
  · subst h; rfl
  · simp only [pick_movement_decode]
    rw [if_neg (by omega)]

/-- Witness for C10: a one-channel pixel sample decodes to no hit. -/
theorem pick_movement_decode_fails_closed_witness :
    pick_movement_decode (some [5]) [1, 2, 3] = none :=
  pick_movement_decode_fails_closed [1, 2, 3] (some [5])
    (Or.inr ⟨[5], rfl, by decide⟩)

/-! ### C8: orthographic draw plan when looking from below -/

/-- The reverse-order while loop emits exactly the per-layer ranges in
descending layer order. -/
lemma draw_reverse_eq_map (layer_stops : List ℕ) (n : ℕ) :
    draw_reverse layer_stops n =
      (List.range n).reverse.map
        (fun k => (layer_stops.getD k 0,
          (layer_stops.getD (k + 1) 0 : ℤ) - (layer_stops.getD k 0 : ℤ))) := by
  induction n with
  | zero => rfl
  | succ k ih => rw [draw_reverse, ih, List.range_succ]; simp

/-- Claim C8: in orthographic mode with `elevation < 0` and any
`num_layers_to_draw ≥ 1` within the layer count, the draw plan is exactly
`num_layers_to_draw` per-layer ranges, emitted in descending layer order
(layer `n-1` first, layer `0` last), the range of layer `k` being
`(layer_stops[k], layer_stops[k+1] - layer_stops[k])`. -/
theorem ortho_below_plan (elevation eye_height offset_z : ℚ)
    (layer_stops : List ℕ) (layer_heights : List ℚ) (n : ℕ)
    (helev : elevation < 0) (_hn : 1 ≤ n) (_hlen : n + 1 ≤ layer_stops.length) :
    display_movements_plan false true elevation eye_height offset_z
        layer_stops layer_heights n =
      (List.range n).reverse.map
        (fun k => (layer_stops.getD k 0,
          (layer_stops.getD (k + 1) 0 : ℤ) - (layer_stops.getD k 0 : ℤ))) ∧
    (display_movements_plan false true elevation eye_height offset_z
        layer_stops layer_heights n).length = n := by
  have hplan : display_movements_plan false true elevation eye_height offset_z
      layer_stops layer_heights n = draw_reverse layer_stops n := by
    unfold display_movements_plan
    rw [if_neg (by simp), if_pos rfl, if_neg (by exact not_le.mpr helev)]
  rw [hplan, draw_reverse_eq_map]
  exact ⟨rfl, by simp⟩

/-- Witness for C8, the spec's test vector: orthographic, `elevation =
-1`, 3 layers, `num_layers_to_draw = 3` emits exactly the three ranges
`[layer2, layer1, layer0]`. -/
theorem ortho_below_plan_witness :
    display_movements_plan false true (-1) 0 0 [0, 48, 96, 144] [] 3 =
      [(96, (48 : ℤ)), (48, 48), (0, 48)] := by
  have h := ortho_below_plan (-1) 0 0 [0, 48, 96, 144] [] 3 (by norm_num)
    (by omega) (by simp)
  rw [h.1]; rfl

/-! ### C1: picking round-trip -/

/-- Recomposing the three 8-bit components of a value below `2^24`
gives the value back. -/
lemma byte_recompose (v : ℕ) (hv : v < 2 ^ 24) :
    (((v >>> 16) &&& 255) <<< 16) ||| (((v >>> 8) &&& 255) <<< 8) ||| (v &&& 255) = v := by
  apply Nat.eq_of_testBit_eq
  intro i
  have h255 : (255 : ℕ) = 2 ^ 8 - 1 := rfl
  rw [h255]
  simp only [Nat.testBit_or, Nat.testBit_shiftLeft, Nat.testBit_and, Nat.testBit_shiftRight,
    Nat.testBit_two_pow_sub_one]
  by_cases h1 : i < 8
  · have h2 : ¬ (8 ≤ i) := by omega
    have h3 : ¬ (16 ≤ i) := by omega
    simp [h1, h2, h3]
  · by_cases h2 : i < 16
    · have e1 : 8 ≤ i := by omega
      have e2 : ¬ (16 ≤ i) := by omega
      have e3 : 8 + (i - 8) = i := by omega
      have e4 : i - 8 < 8 := by omega
      have e5 : ¬ (i < 8) := by omega
      simp [e1, e2, e3, e4, e5]
    · by_cases h3 : i < 24
      · have e1 : 16 ≤ i := by omega
        have e2 : 16 + (i - 16) = i := by omega
        have e3 : i - 16 < 8 := by omega
        have e4 : ¬ (i - 8 < 8) := by omega
        have e5 : ¬ (i < 8) := by omega
        have e6 : 8 ≤ i := by omega
        simp [e1, e2, e3, e4, e5, e6]
      · have hvb : v.testBit i = false :=
          Nat.testBit_lt_two_pow
            (lt_of_lt_of_le hv (Nat.pow_le_pow_right (by norm_num) (by omega)))
        have e3 : ¬ (i - 16 < 8) := by omega
        have e4 : ¬ (i - 8 < 8) := by omega
        have e5 : ¬ (i < 8) := by omega
        simp [hvb, e3, e4, e5]

/-- Claim C1 counterexample: the claim quantifies over every movement
count `n` and index `i < n`, but at `n = 2^24`, `i = 2^24 - 1` the
encoded color id `i + 1 = 2^24` masks to the byte triple `(0, 0, 0)` —
exact black — which the decoder maps to "no hit" instead of the claimed
`movement_line_numbers[i]`. -/
theorem pick_roundtrip_counterexample :
    picking_color_bytes (2 ^ 24 - 1) = (0, 0, 0) ∧
    pick_movement_decode (some [0, 0, 0]) (List.replicate (2 ^ 24) 7) = none ∧
    (none : Option ℕ) ≠ some ((List.replicate (2 ^ 24) 7).getD (2 ^ 24 - 1) 0) :=
  ⟨by decide, rfl, fun h => Option.noConfusion h⟩

/-- Claim C1, amended with the bound the counterexample forces: for every
movement count `n`, every index `i < n` with `i + 1 < 2^24` round-trips —
encoding movement `i` as the RGB color with 24-bit value `i + 1` and
decoding that color through the pick path returns
`movement_line_numbers[i]` — and decoding exact black yields "no hit". -/
theorem pick_roundtrip (movement_line_numbers : List ℕ) (i : ℕ)
    (hi : i < movement_line_numbers.length) (hsmall : i + 1 < 2 ^ 24) :
    pick_movement_decode
        (some [(picking_color_bytes i).1, (picking_color_bytes i).2.1,
          (picking_color_bytes i).2.2]) movement_line_numbers =
      some (movement_line_numbers.getD i 0) ∧
    pick_movement_decode (some [0, 0, 0]) movement_line_numbers = none := by
  refine ⟨?_, rfl⟩
  simp only [picking_color_bytes, pick_movement_decode, List.length_cons, List.length_nil,
    List.getD_cons_zero, List.getD_cons_succ]
  rw [if_pos (by omega)]
  have hrec : ((((i + 1) >>> 16) &&& 255) <<< 16) ||| ((((i + 1) >>> 8) &&& 255) <<< 8) |||
      ((i + 1) &&& 255) = i + 1 := byte_recompose (i + 1) hsmall
  have h255 : (0xFF : ℕ) = 255 := rfl
  unfold decode_pick
  rw [h255, if_neg ?hblack]
  case hblack =>
    rintro ⟨h1, h2, h3⟩
    rw [h1, h2, h3] at hrec
    simp at hrec
  · rw [hrec]
    have hidx : ((i + 1 : ℕ) : ℤ) - 1 = (i : ℤ) := by push_cast; ring
    rw [hidx]
    rw [if_pos ⟨Int.ofNat_nonneg i, by exact_mod_cast hi⟩]
    simp

/-- Witness for the amended C1 at a concrete input: index 0 of a
one-entry table encodes to bytes `(0, 0, 1)` and decodes back to the
table's entry, and black decodes to none. -/
theorem pick_roundtrip_witness :
    pick_movement_decode
        (some [(picking_color_bytes 0).1, (picking_color_bytes 0).2.1,
          (picking_color_bytes 0).2.2]) [5] = some ([5].getD 0 0) ∧
    pick_movement_decode (some [0, 0, 0]) [5] = none :=
  pick_roundtrip [5] 0 (by decide) (by decide)

/-! ### Helpers about `load_data` and its layer loop -/

/-- `load_data` leaves `model_data` as the input with the first movement
of the first layer deleted, whether or not the build succeeds. -/
lemma load_data_model_data (M : MathOps) (s : GcodeState) (m : Movement)
    (tl : List Movement) (rest : List (List Movement)) (u : Bool) :
    (load_data M s ((m :: tl) :: rest) u).model_data = tl :: rest := by
  simp only [load_data]
  split <;> rfl

/-- The layer loop surfaces no error when every remaining layer is
nonempty. -/
lemma process_layers_error_none (M : MathOps) (rr : ℚ) (cs : ℕ)
    (mdf : List (List Movement)) (n ce : ℕ) (u : Bool) :
    ∀ (rest : List (List Movement)), (∀ l ∈ rest, l ≠ []) →
    ∀ idx st loc trace,
      (process_layers M rr cs mdf n ce u idx rest st loc trace).2.2.2 = none := by
  intro rest
  induction rest with
  | nil => intro _ idx st loc trace; rfl
  | cons layer rest ih =>
    intro h idx st loc trace
    cases layer with
    | nil => exact absurd rfl (h [] (by simp))
    | cons f t =>
      simp only [process_layers]
      exact ih (fun l hl => h l (by simp [hl])) _ _ _ _

/-- With a callback supplied, the layer loop extends the trace with one
`(layer_idx + 1, num_layers)` entry for every processed layer index that
is a multiple of `callback_every`. -/
lemma process_layers_trace (M : MathOps) (rr : ℚ) (cs : ℕ)
    (mdf : List (List Movement)) (n ce : ℕ) :
    ∀ (rest : List (List Movement)), (∀ l ∈ rest, l ≠ []) →
    ∀ idx st loc trace,
      (process_layers M rr cs mdf n ce true idx rest st loc trace).2.2.1 =
        trace ++ ((List.range' idx rest.length).filter (fun i => i % ce = 0)).map
          (fun i => (i + 1, n)) := by
  intro rest
  induction rest with
  | nil => intro _ idx st loc trace; simp [process_layers]
  | cons layer rest ih =>
    intro h idx st loc trace
    cases layer with
    | nil => exact absurd rfl (h [] (by simp))
    | cons f t =>
      simp only [process_layers]
      rw [ih (fun l hl => h l (by simp [hl])), List.length_cons, List.range'_succ,
        List.filter_cons]
      by_cases hidx : idx % ce = 0
      · rw [if_pos ⟨trivial, hidx⟩]
        simp [hidx, List.append_assoc]
      · rw [if_neg (by simp [hidx])]
        simp [hidx]

/-- If some remaining layer is empty, the layer loop surfaces the
`IndexError` of `first = layer[0]`. -/
lemma process_layers_error_of_mem_nil (M : MathOps) (rr : ℚ) (cs : ℕ)
    (mdf : List (List Movement)) (n ce : ℕ) (u : Bool) :
    ∀ (rest : List (List Movement)), [] ∈ rest →
    ∀ idx st loc trace,
      (process_layers M rr cs mdf n ce u idx rest st loc trace).2.2.2 =
        some .indexError := by
  intro rest
  induction rest with
  | nil => intro hmem; exact absurd hmem (by simp)
  | cons layer rest ih =>
    intro hmem idx st loc trace
    cases layer with
    | nil => rfl
    | cons f t =>
      have hmem' : [] ∈ rest := by
        rcases List.mem_cons.mp hmem with h' | h'
        · exact absurd h'.symm (by simp)
        · exact h'
      simp only [process_layers]
      exact ih hmem' _ _ _ _

/-- The error of a `load_data` call on a nonempty stream with nonempty
first layer is the error of its layer loop. -/
lemma load_data_error_eq (M : MathOps) (s : GcodeState) (m : Movement)
    (tl : List Movement) (rest : List (List Movement)) (u : Bool) :
    (load_data M s ((m :: tl) :: rest) u).error =
      (process_layers M (0.1 : ℚ) 8 (tl :: rest) ((m :: tl) :: rest).length
        (max 1 (((m :: tl) :: rest).length / 100)) u 0 (tl :: rest)
        (reset_tables s) (BuildLocals.init m) []).2.2.2 := by
  simp only [load_data]
  split <;> rename_i heq <;> rw [heq]

/-- The trace of a `load_data` call on a nonempty stream with nonempty
first layer is the trace of its layer loop. -/
lemma load_data_trace_eq (M : MathOps) (s : GcodeState) (m : Movement)
    (tl : List Movement) (rest : List (List Movement)) (u : Bool) :
    (load_data M s ((m :: tl) :: rest) u).trace =
      (process_layers M (0.1 : ℚ) 8 (tl :: rest) ((m :: tl) :: rest).length
        (max 1 (((m :: tl) :: rest).length / 100)) u 0 (tl :: rest)
        (reset_tables s) (BuildLocals.init m) []).2.2.1 := by
  simp only [load_data]
  split <;> rfl

/-- A successful-shaped input (nonempty stream, nonempty layers once the
origin is deleted) builds without error, and with a callback supplied the
trace covers exactly the layer indices divisible by `callback_every`. -/
lemma load_data_error_trace (M : MathOps) (s : GcodeState) (m : Movement)
    (tl : List Movement) (rest : List (List Movement))
    (h : ∀ l ∈ tl :: rest, l ≠ []) :
    (load_data M s ((m :: tl) :: rest) true).error = none ∧
    (load_data M s ((m :: tl) :: rest) true).trace =
      ((List.range ((m :: tl) :: rest).length).filter
        (fun i => i % max 1 (((m :: tl) :: rest).length / 100) = 0)).map
        (fun i => (i + 1, ((m :: tl) :: rest).length)) := by
  constructor
  · rw [load_data_error_eq]
    exact process_layers_error_none M (0.1 : ℚ) 8 (tl :: rest) _ _ true (tl :: rest) h
      0 (reset_tables s) (BuildLocals.init m) []
  · rw [load_data_trace_eq]
    rw [process_layers_trace M (0.1 : ℚ) 8 (tl :: rest) _ _ (tl :: rest) h
      0 (reset_tables s) (BuildLocals.init m) []]
    simp only [List.nil_append, List.length_cons]
    rw [List.range_eq_range']

/-- The number of multiples of `ce` below `n` is `⌈n / ce⌉`. -/
lemma count_multiples (ce : ℕ) (hce : 0 < ce) :
    ∀ n, ((List.range n).filter (fun i => i % ce = 0)).length = (n + ce - 1) / ce := by
  intro n
  induction n with
  | zero =>
    simp only [List.range_zero, List.filter_nil, List.length_nil]
    exact (Nat.div_eq_of_lt (by omega)).symm
  | succ k ih =>
    rw [List.range_succ, List.filter_append, List.length_append, ih]
    by_cases h : k % ce = 0
    · obtain ⟨q, hq⟩ := Nat.dvd_of_mod_eq_zero h
      have hcomm : ce * q = q * ce := Nat.mul_comm ce q
      have h1 : k + ce - 1 = (ce - 1) + q * ce := by omega
      have h2 : k + 1 + ce - 1 = ce + q * ce := by omega
      rw [h1, h2, Nat.add_mul_div_right _ _ hce, Nat.add_mul_div_right _ _ hce,
        Nat.div_self hce, Nat.div_eq_of_lt (show ce - 1 < ce by omega)]
      simp [h]
      omega
    · have hdm := Nat.div_add_mod k ce
      have hlt : k % ce < ce := Nat.mod_lt _ hce
      have hcomm : ce * (k / ce) = (k / ce) * ce := Nat.mul_comm ce (k / ce)
      have hx : (k / ce + 1) * ce = (k / ce) * ce + ce := by ring
      have h1 : k + ce - 1 = (k % ce - 1) + (k / ce + 1) * ce := by omega
      have h2 : k + 1 + ce - 1 = k % ce + (k / ce + 1) * ce := by omega
      rw [h1, h2, Nat.add_mul_div_right _ _ hce, Nat.add_mul_div_right _ _ hce,
        Nat.div_eq_of_lt (show k % ce - 1 < ce by omega),
        Nat.div_eq_of_lt hlt]
      simp [h]

/-- With `callback_every = max 1 (n / 100)`, at most 199 of the layer
indices below `n` trigger the callback, whatever `n` is. -/
lemma count_multiples_le_199 (n : ℕ) :
    ((List.range n).filter (fun i => i % max 1 (n / 100) = 0)).length ≤ 199 := by
  have hce : 0 < max 1 (n / 100) :=
    Nat.lt_of_lt_of_le Nat.zero_lt_one (Nat.le_max_left 1 (n / 100))
  rw [count_multiples _ hce]
  by_cases hn : n < 200
  · have h1 : max 1 (n / 100) = 1 := Nat.max_eq_left (by omega)
    rw [h1]
    simp
    omega
  · have h1 : max 1 (n / 100) = n / 100 := Nat.max_eq_right (by omega)
    rw [h1]
    have h2 : 2 ≤ n / 100 := by omega
    have hlt : n + n / 100 - 1 < 200 * (n / 100) := by omega
    have := (Nat.div_lt_iff_lt_mul (by omega : 0 < n / 100)).mpr
      (by omega : n + n / 100 - 1 < 200 * (n / 100))
    omega

/-! ### C5: building from an empty movement stream -/

/-- Claim C5 counterexample: building from the empty stream fails with an
`IndexError` (`model_data[0]`), not with `MalformedInputError`, and the
freshly reset index tables are observable on the model after the failure
(`layer_stops = [0]`), so the failure is not free of observable state. -/
theorem load_empty_counterexample :
    (load_data trivOps GcodeState.fresh [] false).error = some .indexError ∧
    (load_data trivOps GcodeState.fresh [] false).error ≠ some .malformedInputError ∧
    (load_data trivOps GcodeState.fresh [] false).state.layer_stops = some [0] ∧
    (load_data trivOps GcodeState.fresh [] false).state.vertices = none :=
  ⟨rfl, fun h => LoadError.noConfusion (Option.some.inj h), rfl, rfl⟩

/-- Claim C5, amended: building from an empty movement stream fails with
an `IndexError` surfaced to the caller; the vertex/normal/color/arrow/
marker buffers are not published (they keep whatever value they had
before the call), but the reset index tables (`layer_stops = [0]`, empty
heights, marker stops `[0]`, empty line-number table, empty selection)
are observable on the model after the failure, and no progress callback
fires. -/
theorem load_empty_behavior (M : MathOps) (s : GcodeState) (u : Bool) :
    (load_data M s [] u).error = some .indexError ∧
    (load_data M s [] u).state.vertices = s.vertices ∧
    (load_data M s [] u).state.normals = s.normals ∧
    (load_data M s [] u).state.colors = s.colors ∧
    (load_data M s [] u).state.arrows = s.arrows ∧
    (load_data M s [] u).state.layer_markers = s.layer_markers ∧
    (load_data M s [] u).state.vertex_count = s.vertex_count ∧
    (load_data M s [] u).state.layer_stops = some [0] ∧
    (load_data M s [] u).state.layer_heights = some [] ∧
    (load_data M s [] u).state.layer_marker_stops = some [0] ∧
    (load_data M s [] u).state.movement_line_numbers = some [] ∧
    (load_data M s [] u).state.selected_lines = some [] ∧
    (load_data M s [] u).trace = [] ∧
    (load_data M s [] u).model_data = [] :=
  ⟨rfl, rfl, rfl, rfl, rfl, rfl, rfl, rfl, rfl, rfl, rfl, rfl, rfl, rfl⟩

/-! ### C6: the build mutates its input -/

/-- Claim C6 counterexample: after building from the stream
`[[mOrigin, mUp]]`, the movement stream observable by the caller is
`[[mUp]]` — the origin movement has been deleted from the first layer in
place — so the input is not left unchanged. -/
theorem load_mutates_counterexample :
    (load_data trivOps GcodeState.fresh [[mOrigin, mUp]] false).model_data = [[mUp]] ∧
    [[mUp]] ≠ [[mOrigin, mUp]] := by
  refine ⟨load_data_model_data trivOps GcodeState.fresh mOrigin [mUp] [] false, ?_⟩
  intro h
  simp [mOrigin, mUp] at h

/-- Claim C6, amended: the build consumes the origin by deleting the
first movement of the first layer from the input in place; apart from
that single deletion the layer structure and the remaining movement
records are unchanged, whether or not the build succeeds. -/
theorem load_data_consumes_origin (M : MathOps) (s : GcodeState) (m : Movement)
    (tl : List Movement) (rest : List (List Movement)) (u : Bool) :
    (load_data M s ((m :: tl) :: rest) u).model_data = tl :: rest :=
  load_data_model_data M s m tl rest u

/-! ### C7: progress-callback cadence -/

/-- Claim C7 counterexample: a successful build over 199 layers invokes
the progress callback 199 times (`callback_every = max 1 (199 / 100) =
1`), nearly double the claimed bound of approximately 100. -/
theorem progress_calls_counterexample :
    (load_data trivOps GcodeState.fresh md199 true).trace.length = 199 ∧
    ¬ ((load_data trivOps GcodeState.fresh md199 true).trace.length ≤ 100) := by
  have h := load_data_error_trace trivOps GcodeState.fresh mOrigin [mOrigin]
    (List.replicate 198 [mOrigin])
    (by
      intro l hl
      rcases List.mem_cons.mp hl with h' | h'
      · subst h'; simp
      · rw [List.eq_of_mem_replicate h']; simp)
  have hmd : md199 = (mOrigin :: [mOrigin]) :: List.replicate 198 [mOrigin] := rfl
  have hlen : ((mOrigin :: [mOrigin]) :: List.replicate 198 [mOrigin]).length = 199 := by
    rw [List.length_cons, List.length_replicate]
  rw [hlen] at h
  rw [hmd, h.2, List.length_map]
  have hmax : max 1 (199 / 100) = 1 := rfl
  simp only [hmax, Nat.mod_one]
  constructor
  · simp
  · simp

/-- Claim C7, amended: with a callback supplied, a successful build over
any number of layers invokes the callback at most 199 times (fewer than
twice the claimed 100; the worst case 199 is attained at 199 layers), and
the trace is exactly one `(layer_index + 1, total_layers)` entry for
every layer index divisible by `callback_every = max 1 (total_layers /
100)`, in increasing order. -/
theorem progress_calls_bounded (M : MathOps) (s : GcodeState)
    (md : List (List Movement)) (h : (load_data M s md true).error = none) :
    (load_data M s md true).trace =
      ((List.range md.length).filter (fun i => i % max 1 (md.length / 100) = 0)).map
        (fun i => (i + 1, md.length)) ∧
    (load_data M s md true).trace.length ≤ 199 := by
  match md with
  | [] => exact absurd h (by simp [load_data])
  | [] :: rest => exact absurd h (by simp [load_data])
  | (m :: tl) :: rest =>
    have hne : ∀ l ∈ tl :: rest, l ≠ [] := by
      intro l hl hcontra
      subst hcontra
      rw [load_data_error_eq] at h
      rw [process_layers_error_of_mem_nil M (0.1 : ℚ) 8 (tl :: rest) _ _ true
        (tl :: rest) hl 0 (reset_tables s) (BuildLocals.init m) []] at h
      exact absurd h (by simp)
    have ht := load_data_error_trace M s m tl rest hne
    refine ⟨ht.2, ?_⟩
    rw [ht.2, List.length_map]
    exact count_multiples_le_199 _

/-- Witness for the amended C7 at a concrete input: a successful
one-layer build with a callback produces exactly the trace `[(1, 1)]`,
within the bound. -/
theorem progress_calls_bounded_witness :
    (load_data trivOps GcodeState.fresh [[mOrigin, mUp]] true).error = none ∧
    (load_data trivOps GcodeState.fresh [[mOrigin, mUp]] true).trace = [(1, 1)] ∧
    (load_data trivOps GcodeState.fresh [[mOrigin, mUp]] true).trace.length ≤ 199 := by
  have herr := (load_data_error_trace trivOps GcodeState.fresh mOrigin [mUp] []
    (by
      intro l hl
      rcases List.mem_cons.mp hl with h' | h'
      · subst h'; simp
      · simp at h')).1
  have h := progress_calls_bounded trivOps GcodeState.fresh [[mOrigin, mUp]] herr
  refine ⟨herr, ?_, h.2⟩
  rw [h.1]
  rfl

/-! ### Buffer-length invariants of the movement loop -/

/-- Chains over an append split at the last position of the first part. -/
lemma chain_ok_append (p : Vec3) (xs ys : List Movement) :
    chain_ok p (xs ++ ys) = (chain_ok p xs && chain_ok (lastPos p xs) ys) := by
  induction xs generalizing p with
  | nil => simp [chain_ok, lastPos]
  | cons x xs ih => simp [chain_ok, lastPos, ih, Bool.and_assoc]

/-- The last movement's position is the last position of the walk. -/
lemma lastMov_v (m0 : Movement) (xs : List Movement) :
    (lastMov m0 xs).v = lastPos m0.v xs := by
  induction xs generalizing m0 with
  | nil => rfl
  | cons x xs ih => exact ih x

/-- One movement step preserves the length invariants, sets `prev` to the
movement, leaves the marker list alone, and — when the step is not
degenerate — adds exactly `cs * 6` vertices per recorded line number. -/
lemma process_movement_inv (M : MathOps) (r : ℚ) (cs : ℕ) (st : GcodeState)
    (loc : BuildLocals) (mv : Movement) (h : lengths_inv cs st loc) :
    lengths_inv cs (process_movement M r cs st loc mv).1
      (process_movement M r cs st loc mv).2 ∧
    (process_movement M r cs st loc mv).2.prev = mv ∧
    (process_movement M r cs st loc mv).2.layer_markers_list = loc.layer_markers_list ∧
    (degenEpsSq ≤ (mv.v.sub loc.prev.v).normSq →
      loc.vertex_list.length = cs * 6 * mlnLen st →
      (process_movement M r cs st loc mv).2.vertex_list.length =
        cs * 6 * mlnLen (process_movement M r cs st loc mv).1) := by
  obtain ⟨h1, h2, h3, h4⟩ := h
  have hmln : mlnLen (process_movement M r cs st loc mv).1 = mlnLen st + 1 := by
    simp [process_movement, mlnLen]
  have harr : (arrow_template.map (M.rotZ (M.angle mv.v loc.prev.v))).length = 3 := by
    simp [arrow_template]
  have hexp : cs * 6 * (mlnLen st + 1) = cs * 6 * mlnLen st + cs * 6 := by ring
  refine ⟨⟨?_, ?_, ?_, ?_⟩, rfl, rfl, ?_⟩
  · show (loc.vertex_list ++ (generate_cylinder M loc.prev.v mv.v r cs).1).length =
      (loc.normal_list ++ (generate_cylinder M loc.prev.v mv.v r cs).2).length
    rw [List.length_append, List.length_append, h1, generate_cylinder_len_eq]
  · show (loc.color_list ++ List.replicate (cs * 6) (movement_color mv)).length =
      cs * 6 * mlnLen (process_movement M r cs st loc mv).1
    rw [List.length_append, List.length_replicate, h2, hmln, hexp]
  · show (loc.arrow_list ++ arrow_template.map (M.rotZ (M.angle mv.v loc.prev.v))).length =
      3 * mlnLen (process_movement M r cs st loc mv).1
    rw [List.length_append, harr, h3, hmln]
    ring
  · show (loc.arrow_endpoints ++ [mv.v]).length =
      mlnLen (process_movement M r cs st loc mv).1
    rw [List.length_append, h4, hmln]
    simp
  · intro hnd hv
    show (loc.vertex_list ++ (generate_cylinder M loc.prev.v mv.v r cs).1).length =
      cs * 6 * mlnLen (process_movement M r cs st loc mv).1
    rw [List.length_append, hv,
      generate_cylinder_fst_length M loc.prev.v mv.v r cs (not_lt.mpr hnd), hmln, hexp]

/-- Folding one layer's movements preserves the length invariants, ends
with `prev` at the layer's last movement, leaves the marker list alone,
and — along a non-degenerate chain — keeps `cs * 6` vertices per recorded
movement. -/
lemma foldl_layer_inv (M : MathOps) (r : ℚ) (cs : ℕ) :
    ∀ (layer : List Movement) (st : GcodeState) (loc : BuildLocals),
      lengths_inv cs st loc →
      lengths_inv cs
        (layer.foldl (fun p mv => process_movement M r cs p.1 p.2 mv) (st, loc)).1
        (layer.foldl (fun p mv => process_movement M r cs p.1 p.2 mv) (st, loc)).2 ∧
      (layer.foldl (fun p mv => process_movement M r cs p.1 p.2 mv) (st, loc)).2.prev =
        lastMov loc.prev layer ∧
      (layer.foldl (fun p mv =>
          process_movement M r cs p.1 p.2 mv) (st, loc)).2.layer_markers_list =
        loc.layer_markers_list ∧
      (chain_ok loc.prev.v layer = true →
        loc.vertex_list.length = cs * 6 * mlnLen st →
        (layer.foldl (fun p mv =>
            process_movement M r cs p.1 p.2 mv) (st, loc)).2.vertex_list.length =
          cs * 6 * mlnLen
            (layer.foldl (fun p mv => process_movement M r cs p.1 p.2 mv) (st, loc)).1) := by
  intro layer
  induction layer with
  | nil => intro st loc h; exact ⟨h, rfl, rfl, fun _ hv => hv⟩
  | cons mv t ih =>
    intro st loc h
    have hpm := process_movement_inv M r cs st loc mv h
    simp only [List.foldl_cons]
    obtain ⟨ihl, ihprev, ihmark, ihcond⟩ :=
      ih (process_movement M r cs st loc mv).1 (process_movement M r cs st loc mv).2 hpm.1
    refine ⟨ihl, ?_, ?_, ?_⟩
    · rw [ihprev, hpm.2.1]
      rfl
    · rw [ihmark, hpm.2.2.1]
    · intro hchain hv
      rw [chain_ok, Bool.and_eq_true] at hchain
      obtain ⟨hc1, hc2⟩ := hchain
      apply ihcond
      · rw [hpm.2.1]
        exact hc2
      · exact hpm.2.2.2 (of_decide_eq_true hc1) hv

/-- The whole layer loop preserves the full invariant along a
non-degenerate chain, provided it does not error. -/
lemma process_layers_inv (M : MathOps) (r : ℚ) (cs : ℕ) (mdf : List (List Movement))
    (n ce : ℕ) (u : Bool) :
    ∀ (rest : List (List Movement)) (idx : ℕ) (st : GcodeState) (loc : BuildLocals)
      (trace : List (ℕ × ℕ)),
      full_inv cs st loc →
      chain_ok loc.prev.v rest.flatten = true →
      (process_layers M r cs mdf n ce u idx rest st loc trace).2.2.2 = none →
      full_inv cs (process_layers M r cs mdf n ce u idx rest st loc trace).1
        (process_layers M r cs mdf n ce u idx rest st loc trace).2.1 := by
  intro rest
  induction rest with
  | nil => intro idx st loc trace h _ _; exact h
  | cons layer rest ih =>
    intro idx st loc trace h hchain herr
    cases layer with
    | nil => exact absurd herr (by simp [process_layers])
    | cons f t =>
      simp only [process_layers] at herr ⊢
      rw [List.flatten_cons, chain_ok_append, Bool.and_eq_true] at hchain
      obtain ⟨hc1, hc2⟩ := hchain
      have hfold := foldl_layer_inv M r cs (f :: t) st loc h.1
      apply ih
      · exact ⟨hfold.1, hfold.2.2.2 hc1 h.2⟩
      · show chain_ok
          ((f :: t).foldl (fun p mv =>
            process_movement M r cs p.1 p.2 mv) (st, loc)).2.prev.v rest.flatten = true
        rw [hfold.2.1, lastMov_v]
        exact hc2
      · exact herr

/-- When the layer loop succeeds, `load_data` publishes the accumulated
buffers on the model. -/
lemma load_data_eq_none (M : MathOps) (s : GcodeState) (m : Movement)
    (tl : List Movement) (rest : List (List Movement)) (u : Bool)
    (hr : (build_core M s m tl rest u).2.2.2 = none) :
    load_data M s ((m :: tl) :: rest) u = ⟨
      { (build_core M s m tl rest u).1 with
          vertices := some (build_core M s m tl rest u).2.1.vertex_list
          normals := some (build_core M s m tl rest u).2.1.normal_list
          colors := some (build_core M s m tl rest u).2.1.color_list
          arrows := some (if 0 < (build_core M s m tl rest u).2.1.arrow_endpoints.length then
              List.zipWith Vec3.add (build_core M s m tl rest u).2.1.arrow_list
                ((build_core M s m tl rest u).2.1.arrow_endpoints.flatMap (List.replicate 3))
            else (build_core M s m tl rest u).2.1.arrow_list)
          layer_markers := some (build_core M s m tl rest u).2.1.layer_markers_list
          max_layers :=
            some ((((build_core M s m tl rest u).1).layer_stops.getD []).length - 1)
          num_layers_to_draw :=
            some ((((build_core M s m tl rest u).1).layer_stops.getD []).length - 1)
          arrows_enabled := some true
          model_initialized := some false
          vertex_count := some (build_core M s m tl rest u).2.1.vertex_list.length },
      tl :: rest, (build_core M s m tl rest u).2.2.1, none⟩ := by
  simp only [load_data]
  split
  · rename_i e heq
    have h' : (build_core M s m tl rest u).2.2.2 = some e := heq
    rw [hr] at h'
    exact Option.noConfusion h'
  · rfl

/-! ### C3: buffer alignment -/

/-- Claim C3 counterexample: a stream whose single real movement is
degenerate (both endpoints at the origin) is accepted by the build, yet
produces 0 vertices while appending a full run of 48 colors and one line
number — so `len(vertices) = len(colors)` and
`len(movement_line_numbers) * sides * 6 = len(vertices)` both fail. -/
theorem buffers_misaligned_counterexample :
    (load_data trivOps GcodeState.fresh [[mOrigin, mOrigin]] false).error = none ∧
    (((load_data trivOps GcodeState.fresh [[mOrigin, mOrigin]] false)).state.vertices.getD
      []).length = 0 ∧
    (((load_data trivOps GcodeState.fresh [[mOrigin, mOrigin]] false)).state.colors.getD
      []).length = 48 ∧
    (((load_data trivOps GcodeState.fresh
      [[mOrigin, mOrigin]] false)).state.movement_line_numbers.getD []).length = 1 ∧
    (((load_data trivOps GcodeState.fresh [[mOrigin, mOrigin]] false)).state.vertices.getD
        []).length ≠
      (((load_data trivOps GcodeState.fresh [[mOrigin, mOrigin]] false)).state.colors.getD
        []).length ∧
    (((load_data trivOps GcodeState.fresh
          [[mOrigin, mOrigin]] false)).state.movement_line_numbers.getD []).length * (8 * 6) ≠
      (((load_data trivOps GcodeState.fresh [[mOrigin, mOrigin]] false)).state.vertices.getD
        []).length := by
  have hne : ∀ l ∈ ([mOrigin] :: ([] : List (List Movement))), l ≠ [] := by
    intro l hl
    rcases List.mem_cons.mp hl with h' | h'
    · subst h'; simp
    · simp at h'
  have herr' : (build_core trivOps GcodeState.fresh mOrigin [mOrigin] [] false).2.2.2 =
      none :=
    process_layers_error_none trivOps (0.1 : ℚ) 8 ([mOrigin] :: [])
      ((mOrigin :: [mOrigin]) :: ([] : List (List Movement))).length
      (max 1 (((mOrigin :: [mOrigin]) :: ([] : List (List Movement))).length / 100)) false
      ([mOrigin] :: []) hne 0 (reset_tables GcodeState.fresh) (BuildLocals.init mOrigin) []
  rw [load_data_eq_none trivOps GcodeState.fresh mOrigin [mOrigin] [] false herr']
  refine ⟨rfl, ?_, ?_, ?_, ?_, ?_⟩ <;>
    simp [build_core, process_layers, process_movement, BuildLocals.init, reset_tables,
      GcodeState.fresh, generate_cylinder_self, mOrigin]

/-- Claim C3, amended with the restriction the counterexample forces: for
every accepted movement stream in which no movement is degenerate (every
consecutive pair of positions along the walk, starting at the origin
point, is at least the tolerance apart), the published buffers satisfy
`len(vertices) = len(normals) = len(colors)` and
`len(movement_line_numbers) * sides * 6 = len(vertices)`. -/
theorem buffers_aligned (M : MathOps) (s : GcodeState) (m : Movement)
    (tl : List Movement) (rest : List (List Movement))
    (hchain : chain_ok m.v (tl :: rest).flatten = true)
    (herr : (load_data M s ((m :: tl) :: rest) true).error = none) :
    ((load_data M s ((m :: tl) :: rest) true).state.vertices.getD []).length =
      ((load_data M s ((m :: tl) :: rest) true).state.normals.getD []).length ∧
    ((load_data M s ((m :: tl) :: rest) true).state.vertices.getD []).length =
      ((load_data M s ((m :: tl) :: rest) true).state.colors.getD []).length ∧
    ((load_data M s ((m :: tl) :: rest) true).state.movement_line_numbers.getD
        []).length * (8 * 6) =
      ((load_data M s ((m :: tl) :: rest) true).state.vertices.getD []).length := by
  have herr' : (build_core M s m tl rest true).2.2.2 = none := by
    rw [load_data_error_eq] at herr
    exact herr
  have hinv := process_layers_inv M (0.1 : ℚ) 8 (tl :: rest) ((m :: tl) :: rest).length
    (max 1 (((m :: tl) :: rest).length / 100)) true (tl :: rest) 0
    (reset_tables s) (BuildLocals.init m) [] ⟨⟨rfl, rfl, rfl, rfl⟩, rfl⟩ hchain herr'
  obtain ⟨⟨e1, e2, _, _⟩, e5⟩ := hinv
  rw [load_data_eq_none M s m tl rest true herr']
  simp only [build_core, Option.getD_some, mlnLen] at e1 e2 e5 ⊢
  refine ⟨e1, ?_, ?_⟩ <;> omega

/-- Witness for the amended C3 at a concrete input: the stream
`[[mOrigin, mUp]]` has a non-degenerate chain, builds without error, and
its published buffers satisfy the claimed equalities. -/
theorem buffers_aligned_witness :
    chain_ok mOrigin.v (([mUp] : List Movement) :: ([] : List (List Movement))).flatten =
      true ∧
    (load_data trivOps GcodeState.fresh [[mOrigin, mUp]] true).error = none ∧
    ((load_data trivOps GcodeState.fresh [[mOrigin, mUp]] true).state.vertices.getD
        []).length =
      ((load_data trivOps GcodeState.fresh [[mOrigin, mUp]] true).state.normals.getD
        []).length ∧
    ((load_data trivOps GcodeState.fresh [[mOrigin, mUp]] true).state.vertices.getD
        []).length =
      ((load_data trivOps GcodeState.fresh [[mOrigin, mUp]] true).state.colors.getD
        []).length ∧
    ((load_data trivOps GcodeState.fresh
        [[mOrigin, mUp]] true).state.movement_line_numbers.getD []).length * (8 * 6) =
      ((load_data trivOps GcodeState.fresh [[mOrigin, mUp]] true).state.vertices.getD
        []).length := by
  have hch : chain_ok mOrigin.v
      (([mUp] : List Movement) :: ([] : List (List Movement))).flatten = true := by
    simp only [List.flatten_cons, List.flatten_nil, List.append_nil, chain_ok,
      Bool.and_true, decide_eq_true_eq]
    norm_num [mUp, mOrigin, Vec3.sub, Vec3.normSq, degenEpsSq]
  have herr := (load_data_error_trace trivOps GcodeState.fresh mOrigin [mUp] []
    (by
      intro l hl
      rcases List.mem_cons.mp hl with h' | h'
      · subst h'; simp
      · simp at h')).1
  exact ⟨hch, herr,
    buffers_aligned trivOps GcodeState.fresh mOrigin [mUp] [] hch herr⟩

/-! ### C9: the arrow-overlay draw range -/

/-- Computed fields of the one-movement non-degenerate build used to
exhibit the arrow-range bug. -/
lemma build_core_single_up :
    (build_core trivOps GcodeState.fresh mOrigin [mUp] [] false).1.layer_stops =
      some [0, 48] ∧
    (build_core trivOps GcodeState.fresh mOrigin [mUp] [] false).2.1.arrow_list.length =
      3 ∧
    (build_core trivOps GcodeState.fresh mOrigin [mUp] [] false).2.1.arrow_endpoints =
      [mUp.v] := by
  have hnd : ¬ ((mUp.v.sub mOrigin.v).normSq < degenEpsSq) := by
    norm_num [mUp, mOrigin, Vec3.sub, Vec3.normSq, degenEpsSq]
  have hlen : (generate_cylinder trivOps mOrigin.v mUp.v (0.1 : ℚ) 8).1.length = 48 :=
    generate_cylinder_fst_length trivOps mOrigin.v mUp.v (0.1 : ℚ) 8 hnd
  refine ⟨?_, ?_, ?_⟩ <;>
    simp [build_core, process_layers, process_movement, BuildLocals.init, reset_tables,
      GcodeState.fresh, hlen, arrow_template]

/-- Claim C9 is the documented intent, but the code computes the arrow
range with the stale per-movement vertex count 2: for a one-movement
build (`layer_stops = [0, 48]`, arrow buffer of 3 vertices),
`_display_arrows` submits the range `(0, (48 // 2) * 3) = (0, 72)`,
which selects 72 arrow vertices where the arrows of the drawn movements
occupy only `(0, 3)` — the range overruns the whole arrow buffer instead
of matching the main mesh's selection. -/
theorem arrow_overlay_range_bug :
    (load_data trivOps GcodeState.fresh [[mOrigin, mUp]] false).error = none ∧
    (load_data trivOps GcodeState.fresh [[mOrigin, mUp]] false).state.layer_stops =
      some [0, 48] ∧
    ((load_data trivOps GcodeState.fresh [[mOrigin, mUp]] false).state.arrows.getD
      []).length = 3 ∧
    display_arrows_range [0, 48] 1 = (0, 72) ∧
    ¬ ((display_arrows_range [0, 48] 1).2 ≤
        (((load_data trivOps GcodeState.fresh [[mOrigin, mUp]] false).state.arrows.getD
          []).length : ℤ)) := by
  have hne : ∀ l ∈ ([mUp] :: ([] : List (List Movement))), l ≠ [] := by
    intro l hl
    rcases List.mem_cons.mp hl with h' | h'
    · subst h'; simp
    · simp at h'
  have herr' : (build_core trivOps GcodeState.fresh mOrigin [mUp] [] false).2.2.2 =
      none :=
    process_layers_error_none trivOps (0.1 : ℚ) 8 ([mUp] :: [])
      ((mOrigin :: [mUp]) :: ([] : List (List Movement))).length
      (max 1 (((mOrigin :: [mUp]) :: ([] : List (List Movement))).length / 100)) false
      ([mUp] :: []) hne 0 (reset_tables GcodeState.fresh) (BuildLocals.init mOrigin) []
  have hb := build_core_single_up
  have harrows :
      ((load_data trivOps GcodeState.fresh [[mOrigin, mUp]] false).state.arrows.getD
        []).length = 3 := by
    rw [load_data_eq_none trivOps GcodeState.fresh mOrigin [mUp] [] false herr']
    simp only [Option.getD_some]
    rw [hb.2.2]
    simp [hb.2.1]
  refine ⟨?_, ?_, harrows, ?_, ?_⟩
  · rw [load_data_eq_none trivOps GcodeState.fresh mOrigin [mUp] [] false herr']
  · rw [load_data_eq_none trivOps GcodeState.fresh mOrigin [mUp] [] false herr']
    exact hb.1
  · simp [display_arrows_range]
  · rw [harrows]
    simp [display_arrows_range]

end Tatlin
